import Mathlib

/-!
Shallow embedding of the image-search repository (src/process.py, src/search.py).

Vectors and feature matrices are modelled over the rationals; matrices are
lists of rows.  The features directory is modelled as a pair of association
lists (one for the array artifacts `*.npy`, one for the tabular artifacts
`*.csv`) keyed by file name.  File names are either a zero-padded batch index
`f"{i:010d}"` or the merged name (`features` for the array side, `photo_ids`
for the tabular side); because the ten-digit zero padding makes lexicographic
order on batch names agree with numeric order, and because every digit
character precedes both `f` and `p`, the lexicographic sort used by
`sorted(path.glob(...))` is modelled by the order on `FName` below.
-/

namespace ImageSearch

abbrev Vec := List ℚ

abbrev Mat := List Vec

/-- File names appearing in the features directory: `batch i` stands for the
zero-padded name `f"{i:010d}"` (shared by the batch's `.npy` and `.csv`
artifacts), and `merged` stands for the consolidated artifact name
(`features` on the `.npy` side, `photo_ids` on the `.csv` side). -/
inductive FName
  | batch (i : Nat)
  | merged
deriving DecidableEq

/-- Lexicographic order on file names: zero-padded numeric names compare by
their index, and every zero-padded numeric name precedes the merged name
(a digit character precedes the letters `f` and `p`). -/
def fname_le : FName → FName → Bool
  | .batch i, .batch j => decide (i ≤ j)
  | .batch _, .merged => true
  | .merged, .batch _ => false
  | .merged, .merged => true

/-- Read a file from an association list (None = the file does not exist). -/
def fget {α : Type} : List (FName × α) → FName → Option α
  | [], _ => none
  | (k, v) :: rest, k' => if k = k' then some v else fget rest k'

/-- Write a file into an association list, overwriting any previous content
under the same name (`np.save` / `DataFrame.to_csv` overwrite). -/
def fset {α : Type} (l : List (FName × α)) (k : FName) (v : α) : List (FName × α) :=
  (k, v) :: l.filter (fun p => !decide (p.1 = k))

/-- State of the features directory: the `.npy` files and the `.csv` files. -/
structure Store where
  npy : List (FName × Mat)
  csv : List (FName × List String)
deriving DecidableEq

/-- Insertion step of a stable insertion sort: `x` is placed in front of the
first element `y` with `le x y`. -/
def ins_by {α : Type} (le : α → α → Bool) (x : α) : List α → List α
  | [] => [x]
  | y :: ys => if le x y then x :: y :: ys else y :: ins_by le x ys

/-- Stable insertion sort; models both Python's `sorted` on file paths and
`sorted(..., key=lambda x: x[0], reverse=True)` on (similarity, index) pairs
(the latter via the flipped comparison `pair_le`). -/
def sort_by {α : Type} (le : α → α → Bool) : List α → List α
  | [] => []
  | x :: xs => ins_by le x (sort_by le xs)

/-- Concatenation of a list of lists (`np.concatenate` / `pd.concat` payload). -/
def cat_lists {α : Type} : List (List α) → List α
  | [] => []
  | l :: ls => l ++ cat_lists ls

/-- Model of `np.concatenate`: raises `ValueError: need at least one array to
concatenate` on an empty list of arrays, otherwise concatenates the rows. -/
def np_concatenate (ms : List Mat) : Except String Mat :=
  if ms = [] then .error "need at least one array to concatenate"
  else .ok (cat_lists ms)

/-- Model of `pd.concat`: raises `ValueError: No objects to concatenate` on an
empty list of frames, otherwise concatenates the rows. -/
def pd_concat (ls : List (List String)) : Except String (List String) :=
  if ls = [] then .error "No objects to concatenate"
  else .ok (cat_lists ls)

/-- Model of `sorted(features_path.glob("*.npy"))`: every `.npy` file name in
the directory, in lexicographic order.  Note that this matches the merged
`features.npy` as well as the per-batch artifacts. -/
def glob_npy (s : Store) : List FName :=
  sort_by fname_le (s.npy.map (fun p => p.1))

/-- Model of `sorted(features_path.glob("*.csv"))`: every `.csv` file name in
the directory, in lexicographic order, the merged `photo_ids.csv` included. -/
def glob_csv (s : Store) : List FName :=
  sort_by fname_le (s.csv.map (fun p => p.1))

/-- Merge step of `process.py` (lines 37-45): load every `.npy` file in sorted
order, concatenate, save as `features.npy`; then load every `.csv` file in
sorted order, concatenate, save as `photo_ids.csv`.  Both globs are taken
before the corresponding write, exactly as in the source.  An uncaught
exception from either concatenation aborts the step before its write. -/
def merge_step (s : Store) : Except String Store :=
  match np_concatenate ((glob_npy s).map (fun n => (fget s.npy n).getD [])) with
  | .error e => .error e
  | .ok features =>
    let s1 : Store := ⟨fset s.npy FName.merged features, s.csv⟩
    match pd_concat ((glob_csv s1).map (fun n => (fget s1.csv n).getD [])) with
    | .error e => .error e
    | .ok ids => .ok ⟨s1.npy, fset s1.csv FName.merged ids⟩

/-- True on a successful merge, false when the merge raised. -/
def merge_ok {ε α : Type} : Except ε α → Bool
  | .ok _ => true
  | .error _ => false

/-- Consolidated feature matrix written by a merge result, if any. -/
def merged_npy (r : Except String Store) : Option Mat :=
  match r with
  | .ok t => fget t.npy FName.merged
  | .error _ => none

/-- Consolidated identifier column written by a merge result, if any. -/
def merged_csv (r : Except String Store) : Option (List String) :=
  match r with
  | .ok t => fget t.csv FName.merged
  | .error _ => none

/-- Whether a file name is a per-batch (zero-padded numeric) name. -/
def is_batch_name : FName → Bool
  | .batch _ => true
  | .merged => false

/-- Point at which the body of one iteration of the batch loop of
`process.py` (lines 22-33) can raise: during `compute_image_features`
(decode or encoder failure), during `np.save`, while building the id list
(`photo_file.resolve()` / `pd.DataFrame`), or during `to_csv`; `ok` means no
step raised.  File writes are modelled as atomic: a step that raises writes
nothing, a step that completes writes its whole file. -/
inductive FailPoint
  | atEncode
  | atSaveFeatures
  | atMakeIds
  | atSaveIds
  | ok
deriving DecidableEq

/-- Result of one iteration of the batch loop: the directory afterwards, and
whether `compute_image_features` (the encoder) was invoked. -/
structure BatchResult where
  store : Store
  encoderCalled : Bool
deriving DecidableEq

/-- One iteration of the batch loop of `process.py` (lines 22-33): skip the
batch when its feature artifact exists; otherwise encode, save the `.npy`,
then build and save the `.csv`, where `fp` says which step (if any) raises —
the bare `except` swallows the exception, leaving whatever was already
written.  `feats` and `ids` are the values the encoder and the id
construction would produce for this batch. -/
def process_batch (s : Store) (i : Nat) (fp : FailPoint) (feats : Mat)
    (ids : List String) : BatchResult :=
  if (fget s.npy (FName.batch i)).isSome then ⟨s, false⟩
  else
    match fp with
    | .atEncode => ⟨s, true⟩
    | .atSaveFeatures => ⟨s, true⟩
    | .atMakeIds => ⟨⟨fset s.npy (FName.batch i) feats, s.csv⟩, true⟩
    | .atSaveIds => ⟨⟨fset s.npy (FName.batch i) feats, s.csv⟩, true⟩
    | .ok => ⟨⟨fset s.npy (FName.batch i) feats,
              fset s.csv (FName.batch i) ids⟩, true⟩

/-- Model of `photos_files = [item for e in ext_list for item in
photos_path.glob(e)]` (process.py line 9): for each extension pattern, the
directory entries matching it, concatenated across patterns.  A pattern is
modelled as the predicate it induces on file names and the directory as its
entry list. -/
def photos_files (ext_list : List (String → Bool)) (dir : List String) :
    List String :=
  cat_lists (ext_list.map (fun e => dir.filter e))

/-- Dot product (`text_features @ photo_features.T` entry). -/
def dot (a b : Vec) : ℚ :=
  (List.zipWith (fun x y => x * y) a b).sum

/-- Similarity of the query to every row of the feature matrix
(search.py line 16). -/
def similarities (q : Vec) (F : Mat) : List ℚ :=
  F.map (fun v => dot q v)

/-- Comparison used to model `sorted(..., key=lambda x: x[0], reverse=True)`
as a stable insertion sort: `x` goes in front of `y` exactly when `y`'s key
does not exceed `x`'s, which reproduces CPython's descending order with ties
kept in original (ascending-index) order. -/
def pair_le (x y : ℚ × Nat) : Bool :=
  decide (y.1 ≤ x.1)

/-- Model of `best_photos` (search.py line 17): the (similarity, row index)
pairs sorted by descending similarity, ties in original order. -/
def best_photos (q : Vec) (F : Mat) : List (ℚ × Nat) :=
  sort_by pair_le ((similarities q F).zip (List.range F.length))

/-- The ranking: the row indices of `best_photos` in ranked order. -/
def ranking (q : Vec) (F : Mat) : List Nat :=
  (best_photos q F).map (fun p => p.2)

/-- The result-printing loop of `search.py` (lines 19-22) over an explicit
index list: for each `i` read `best_photos[i]` and then `photo_ids[idx]`;
an out-of-range access is Python's `IndexError`, modelled as `none`. -/
def read_results : List Nat → List (ℚ × Nat) → List String → Option (List String)
  | [], _, _ => some []
  | i :: is, bp, ids =>
    match bp[i]? with
    | none => none
    | some p =>
      match ids[p.2]? with
      | none => none
      | some pid => (read_results is bp ids).map (fun out => pid :: out)

/-- Model of `for i in range(display_num): print(photo_ids[best_photos[i][1]])`:
the printed identifiers, or `none` when the loop raises `IndexError`. -/
def display_results (display_num : Nat) (bp : List (ℚ × Nat))
    (ids : List String) : Option (List String) :=
  read_results (List.range display_num) bp ids

/-- The interactive query loop of `search.py` (lines 14-24) over a prepared
list of queries, each given by the outcome of `compute_text_feature` on it
(`none` = the encoder raises on that query).  There is no exception handler
in the loop, so a raising query — encoder failure or `IndexError` while
printing — terminates the session; otherwise the query's printed identifiers
are collected and the loop continues. -/
def session_run (display_num : Nat) (F : Mat) (ids : List String) :
    List (Option Vec) → List (List String)
  | [] => []
  | none :: _ => []
  | some q :: rest =>
    match display_results display_num (best_photos q F) ids with
    | none => []
    | some out => out :: session_run display_num F ids rest

/-- Ranking relation established by the descending stable sort: an earlier
entry either has strictly larger similarity, or equal similarity and a
smaller original row index. -/
def ranked_before (a b : ℚ × Nat) : Prop :=
  b.1 < a.1 ∨ (a.1 = b.1 ∧ a.2 < b.2)

/-- Features directory after one successful run over one batch of one photo:
batch artifact `0000000000` with one row and one identifier. -/
def s_fresh : Store :=
  ⟨[(FName.batch 0, [[1]])], [(FName.batch 0, ["a"])]⟩

/-- The same directory as `s_fresh` after a completed previous pipeline run:
identical per-batch artifacts, plus the previously merged `features.npy` and
`photo_ids.csv` still on disk. -/
def s_rerun : Store :=
  ⟨[(FName.batch 0, [[1]]), (FName.merged, [[1]])],
   [(FName.batch 0, ["a"]), (FName.merged, ["a"])]⟩

/-- Features directory where batch 0 wrote its feature artifact but not its
identifier artifact (the state the batch loop leaves after a failure between
its two writes), while batch 1 wrote both. -/
def s_corrupt : Store :=
  ⟨[(FName.batch 0, [[1]]), (FName.batch 1, [[2]])],
   [(FName.batch 1, ["b"])]⟩

/-- Features directory holding no per-batch artifact at all, only a stale
consolidated `features.npy` / `photo_ids.csv` from an earlier run. -/
def s_stale_only : Store :=
  ⟨[(FName.merged, [[1]])], [(FName.merged, ["a"])]⟩

theorem ins_by_perm {α : Type} (le : α → α → Bool) (x : α) (l : List α) :
    List.Perm (ins_by le x l) (x :: l) := by
  induction l with
  | nil => exact List.Perm.refl _
  | cons y ys ih =>
    simp only [ins_by]
    split
    · exact List.Perm.refl _
    · exact (ih.cons y).trans (List.Perm.swap x y ys)

theorem sort_by_perm {α : Type} (le : α → α → Bool) (l : List α) :
    List.Perm (sort_by le l) l := by
  induction l with
  | nil => exact List.Perm.refl _
  | cons x xs ih =>
    simp only [sort_by]
    exact (ins_by_perm le x (sort_by le xs)).trans (ih.cons x)

theorem sort_by_eq_nil {α : Type} (le : α → α → Bool) (l : List α) :
    sort_by le l = [] ↔ l = [] := by
  constructor
  · intro h
    have hp := sort_by_perm le l
    rw [h] at hp
    exact hp.symm.eq_nil
  · intro h
    subst h
    rfl

theorem glob_npy_eq_nil (s : Store) : glob_npy s = [] ↔ s.npy = [] := by
  simp [glob_npy, sort_by_eq_nil]

theorem fget_fset_same {α : Type} (l : List (FName × α)) (k : FName) (v : α) :
    fget (fset l k v) k = some v := by
  simp [fget, fset]

/-- Claim C10 (amended): the merge raises np.concatenate's error and writes
neither consolidated artifact whenever there is no `.npy` file at all in the
features directory; per-batch artifacts being absent is not enough on its
own, because the glob also matches a stale merged `features.npy`
(see the counterexample). -/
theorem merge_errors_when_no_npy (s : Store) (h : s.npy = []) :
    merge_step s = .error "need at least one array to concatenate" := by
  have hg : glob_npy s = [] := (glob_npy_eq_nil s).mpr h
  simp [merge_step, hg, np_concatenate]

/-- Witness for `merge_errors_when_no_npy` at a concrete directory. -/
theorem merge_errors_when_no_npy_witness :
    merge_step ⟨[], [(FName.batch 0, ["a"])]⟩ =
      Except.error "need at least one array to concatenate" :=
  merge_errors_when_no_npy ⟨[], [(FName.batch 0, ["a"])]⟩ rfl

/-- Counterexample to claim C10 as stated: a directory with no per-batch
feature artifact but with a stale consolidated `features.npy` from an earlier
run; the merge does not raise on it — it happily rebuilds the consolidated
index from the stale merged file, because the `*.npy` glob matches it. -/
theorem merge_stale_only_cex :
    s_stale_only.npy.all (fun p => !is_batch_name p.1) = true ∧
      merge_ok (merge_step s_stale_only) = true ∧
      merged_npy (merge_step s_stale_only) = some [[1]] := by decide

/-- Claim C1: the consolidated index is not a pure function of the per-batch
artifacts.  `s_fresh` and `s_rerun` hold identical per-batch artifacts
(first two conjuncts) and differ only in whether the previously merged
`features.npy` / `photo_ids.csv` are still in the directory, yet the merge
step writes a one-row consolidated matrix in the first case and a
duplicated two-row matrix and identifier column in the second: the `*.npy`
and `*.csv` globs of process.py lines 37 and 44 also match the previous
merge's own outputs. -/
theorem merge_reads_stale_consolidated :
    s_rerun.npy.filter (fun p => is_batch_name p.1) =
        s_fresh.npy.filter (fun p => is_batch_name p.1) ∧
      s_rerun.csv.filter (fun p => is_batch_name p.1) =
        s_fresh.csv.filter (fun p => is_batch_name p.1) ∧
      merged_npy (merge_step s_fresh) = some [[1]] ∧
      merged_csv (merge_step s_fresh) = some ["a"] ∧
      merged_npy (merge_step s_rerun) = some [[1], [1]] ∧
      merged_csv (merge_step s_rerun) = some ["a", "a"] := by decide

/-- Counterexample to claim C2 as stated: in `s_corrupt` batch 0 has a
feature artifact and no identifier artifact, yet the merge does not fail —
it writes a two-row consolidated matrix next to a one-entry identifier
column, i.e. silently misaligned consolidated artifacts. -/
theorem merge_no_corrupt_check_cex :
    merge_ok (merge_step s_corrupt) = true ∧
      merged_npy (merge_step s_corrupt) = some [[1], [2]] ∧
      merged_csv (merge_step s_corrupt) = some ["b"] := by decide

/-- Claim C2 (amended): the merge performs no cross-check between feature
and identifier artifacts: it succeeds exactly when at least one `.npy` file
and at least one `.csv` file exist, regardless of whether they come from
matching batches or have matching lengths. -/
theorem merge_no_cross_check (s : Store) :
    merge_ok (merge_step s) = true ↔ (s.npy ≠ [] ∧ s.csv ≠ []) := by
  by_cases hn : s.npy = []
  · have hg : glob_npy s = [] := (glob_npy_eq_nil s).mpr hn
    simp [merge_step, hg, np_concatenate, merge_ok, hn]
  · obtain ⟨a, as, hcons⟩ :=
      List.exists_cons_of_ne_nil (fun h => hn ((glob_npy_eq_nil s).mp h))
    by_cases hc : s.csv = []
    · simp [merge_step, hcons, np_concatenate, glob_csv, hc, sort_by, pd_concat,
        merge_ok, hn]
    · obtain ⟨y, ys, hys⟩ :
          ∃ y ys, sort_by fname_le (s.csv.map (fun p => p.1)) = y :: ys := by
        cases h' : sort_by fname_le (s.csv.map (fun p => p.1)) with
        | nil =>
          rw [sort_by_eq_nil] at h'
          exact absurd (List.map_eq_nil_iff.mp h') hc
        | cons y ys => exact ⟨y, ys, rfl⟩
      simp [merge_step, hcons, np_concatenate, glob_csv, hys, pd_concat, merge_ok,
        hn, hc]

/-- Claim C6: a batch whose feature artifact already exists is skipped
entirely — the directory is left unchanged (so neither of the batch's
artifacts is recomputed or altered) and the encoder is not invoked,
whatever the batch's inputs or failure behaviour would have been. -/
theorem batch_skip_when_features_exist (s : Store) (i : Nat) (fp : FailPoint)
    (feats : Mat) (ids : List String)
    (h : (fget s.npy (FName.batch i)).isSome = true) :
    process_batch s i fp feats ids = ⟨s, false⟩ := by
  simp [process_batch, h]

/-- Witness for `batch_skip_when_features_exist`: batch 0's feature artifact
exists, so a re-run with different would-be encoder output changes nothing
and never calls the encoder. -/
theorem batch_skip_when_features_exist_witness :
    process_batch ⟨[(FName.batch 0, [[1]])], []⟩ 0 FailPoint.ok [[2]] ["b"] =
      ⟨⟨[(FName.batch 0, [[1]])], []⟩, false⟩ :=
  batch_skip_when_features_exist ⟨[(FName.batch 0, [[1]])], []⟩ 0 FailPoint.ok
    [[2]] ["b"] (by decide)

/-- Counterexample to claim C3 as stated: a batch whose processing fails
while writing the identifier artifact (after `np.save` completed) leaves the
feature artifact on disk with no identifier artifact — the failing batch
leaves exactly one of the two artifacts behind. -/
theorem batch_partial_write_cex :
    (fget (process_batch ⟨[], []⟩ 0 FailPoint.atSaveIds [[1]] ["a"]).store.npy
          (FName.batch 0)).isSome = true ∧
      fget (process_batch ⟨[], []⟩ 0 FailPoint.atSaveIds [[1]] ["a"]).store.csv
          (FName.batch 0) = none := by decide

/-- Claim C3 (amended): the batch write is all-or-nothing only up to the
feature save: a failure during decoding/encoding (or in `np.save` itself)
leaves neither artifact, but a failure after the feature artifact is written
— while building or writing the identifier artifact — leaves the feature
artifact on disk without its identifier artifact. -/
theorem batch_failure_artifacts (s : Store) (i : Nat) (fp : FailPoint)
    (feats : Mat) (ids : List String)
    (hn : fget s.npy (FName.batch i) = none)
    (hc : fget s.csv (FName.batch i) = none) :
    ((fp = FailPoint.atEncode ∨ fp = FailPoint.atSaveFeatures) →
        fget (process_batch s i fp feats ids).store.npy (FName.batch i) = none ∧
          fget (process_batch s i fp feats ids).store.csv (FName.batch i) = none) ∧
      ((fp = FailPoint.atMakeIds ∨ fp = FailPoint.atSaveIds) →
        fget (process_batch s i fp feats ids).store.npy (FName.batch i) =
            some feats ∧
          fget (process_batch s i fp feats ids).store.csv (FName.batch i) = none) := by
  have hskip : (fget s.npy (FName.batch i)).isSome = false := by simp [hn]
  cases fp <;> simp [process_batch, hskip, fget_fset_same, hn, hc]

/-- Witness for `batch_failure_artifacts`: concrete fresh directory, failure
while writing the identifier artifact. -/
theorem batch_failure_artifacts_witness :
    fget (process_batch ⟨[], []⟩ 0 FailPoint.atMakeIds [[1]] ["a"]).store.npy
        (FName.batch 0) = some [[1]] ∧
      fget (process_batch ⟨[], []⟩ 0 FailPoint.atMakeIds [[1]] ["a"]).store.csv
        (FName.batch 0) = none :=
  (batch_failure_artifacts ⟨[], []⟩ 0 FailPoint.atMakeIds [[1]] ["a"] rfl rfl).2
    (Or.inl rfl)

theorem mem_ins_by {α : Type} {le : α → α → Bool} {x z : α} {l : List α}
    (h : z ∈ ins_by le x l) : z = x ∨ z ∈ l := by
  have hm := (ins_by_perm le x l).mem_iff.mp h
  simpa using hm

theorem ins_by_ranked (x : ℚ × Nat) (l : List (ℚ × Nat))
    (hl : l.Pairwise ranked_before) (hx : ∀ y ∈ l, x.2 < y.2) :
    (ins_by pair_le x l).Pairwise ranked_before := by
  induction l with
  | nil => simp [ins_by]
  | cons y ys ih =>
    rcases List.pairwise_cons.mp hl with ⟨hy, hys⟩
    simp only [ins_by]
    split
    next hle =>
      have hyx : y.1 ≤ x.1 := by simpa [pair_le] using hle
      refine List.pairwise_cons.mpr ⟨?_, hl⟩
      intro z hz
      rcases List.mem_cons.mp hz with rfl | hzys
      · rcases lt_or_eq_of_le hyx with hlt | heq
        · exact Or.inl hlt
        · exact Or.inr ⟨heq.symm, hx _ (List.mem_cons_self _ _)⟩
      · have hz1 : z.1 ≤ y.1 := by
          rcases hy z hzys with h1 | ⟨h1, _⟩
          · exact le_of_lt h1
          · exact le_of_eq h1.symm
        rcases lt_or_eq_of_le (le_trans hz1 hyx) with hlt | heq
        · exact Or.inl hlt
        · exact Or.inr ⟨heq.symm, hx _ (List.mem_cons_of_mem _ hzys)⟩
    next hle =>
      have hxy : x.1 < y.1 := lt_of_not_le (by simpa [pair_le] using hle)
      refine List.pairwise_cons.mpr
        ⟨?_, ih hys (fun z hz => hx z (List.mem_cons_of_mem _ hz))⟩
      intro z hz
      rcases mem_ins_by hz with rfl | hzys
      · exact Or.inl hxy
      · exact hy z hzys

theorem sort_by_ranked (l : List (ℚ × Nat))
    (hl : l.Pairwise (fun a b => a.2 < b.2)) :
    (sort_by pair_le l).Pairwise ranked_before := by
  induction l with
  | nil => simp [sort_by]
  | cons x xs ih =>
    rcases List.pairwise_cons.mp hl with ⟨hx, hxs⟩
    simp only [sort_by]
    exact ins_by_ranked x _ (ih hxs)
      (fun y hy => hx y ((sort_by_perm pair_le xs).mem_iff.mp hy))

theorem zip_pairwise_idx (l : List ℚ) :
    ∀ r : List Nat, r.Pairwise (· < ·) →
      (l.zip r).Pairwise (fun a b : ℚ × Nat => a.2 < b.2) := by
  induction l with
  | nil => intro r _; simp
  | cons x xs ih =>
    intro r hr
    cases r with
    | nil => simp
    | cons k ks =>
      rcases List.pairwise_cons.mp hr with ⟨hk, hks⟩
      simp only [List.zip_cons_cons]
      refine List.pairwise_cons.mpr ⟨?_, ih ks hks⟩
      intro z hz
      obtain ⟨a, b⟩ := z
      exact hk b (List.of_mem_zip hz).2

theorem best_photos_ranked (q : Vec) (F : Mat) :
    (best_photos q F).Pairwise ranked_before :=
  sort_by_ranked _ (zip_pairwise_idx _ _ (List.pairwise_lt_range _))

theorem best_photos_perm (q : Vec) (F : Mat) :
    List.Perm (best_photos q F) ((similarities q F).zip (List.range F.length)) :=
  sort_by_perm _ _

theorem best_photos_length (q : Vec) (F : Mat) :
    (best_photos q F).length = F.length := by
  rw [best_photos, (sort_by_perm pair_le _).length_eq]
  simp [similarities]

/-- Claim C5: the ranking is the stable descending sort of the (similarity,
row index) pairs — `best_photos` is a permutation of the similarity/row-index
pairs, and whenever two of its entries have equal similarity, the one with
the smaller original row index is ranked first. -/
theorem ranking_tiebreak_stable (q : Vec) (F : Mat) :
    List.Perm (best_photos q F)
        ((similarities q F).zip (List.range F.length)) ∧
      ∀ i j (hi : i < (best_photos q F).length)
        (hj : j < (best_photos q F).length),
        i < j →
        ((best_photos q F).get ⟨i, hi⟩).1 = ((best_photos q F).get ⟨j, hj⟩).1 →
        ((best_photos q F).get ⟨i, hi⟩).2 < ((best_photos q F).get ⟨j, hj⟩).2 := by
  refine ⟨best_photos_perm q F, ?_⟩
  intro i j hi hj hij heq
  have hp := List.pairwise_iff_get.mp (best_photos_ranked q F) ⟨i, hi⟩ ⟨j, hj⟩ hij
  simp only [ranked_before] at hp
  rcases hp with hlt | ⟨_, hidx⟩
  · exact absurd heq (ne_of_gt hlt)
  · exact hidx

/-- Witness for `ranking_tiebreak_stable`: two rows with equal similarity to
the query keep ascending row order in the ranking. -/
theorem ranking_tiebreak_stable_witness :
    ((best_photos [(1 : ℚ)] [[(1 : ℚ)], [(1 : ℚ)]]).get
        ⟨0, by simp [best_photos_length]⟩).2 <
      ((best_photos [(1 : ℚ)] [[(1 : ℚ)], [(1 : ℚ)]]).get
        ⟨1, by simp [best_photos_length]⟩).2 :=
  (ranking_tiebreak_stable [(1 : ℚ)] [[(1 : ℚ)], [(1 : ℚ)]]).2 0 1
    (by simp [best_photos_length]) (by simp [best_photos_length]) (by norm_num)
    (by norm_num [best_photos, similarities, dot, sort_by, ins_by, pair_le,
      List.range_succ])

theorem sum_map_scale (c : ℚ) (l : List ℚ) :
    (l.map (fun x => c * x)).sum = c * l.sum := by
  induction l with
  | nil => simp
  | cons x xs ih => simp [ih, mul_add]

theorem dot_scale (c : ℚ) (q : Vec) : ∀ v : Vec,
    dot (q.map (fun x => c * x)) v = c * dot q v := by
  induction q with
  | nil => intro v; simp [dot]
  | cons a q' ih =>
    intro v
    cases v with
    | nil => simp [dot]
    | cons b v' =>
      simp only [List.map_cons, dot, List.zipWith_cons_cons, List.sum_cons]
      have := ih v'
      simp only [dot] at this
      rw [this]
      ring

theorem similarities_scale (c : ℚ) (q : Vec) (F : Mat) :
    similarities (q.map (fun x => c * x)) F =
      (similarities q F).map (fun x => c * x) := by
  simp [similarities, List.map_map, Function.comp, dot_scale]

theorem ins_by_scale (c : ℚ) (hc : 0 < c) (x : ℚ × Nat) (l : List (ℚ × Nat)) :
    ins_by pair_le (c * x.1, x.2) (l.map (fun p => (c * p.1, p.2))) =
      (ins_by pair_le x l).map (fun p => (c * p.1, p.2)) := by
  induction l with
  | nil => simp [ins_by]
  | cons y ys ih =>
    have hiff : pair_le (c * x.1, x.2) (c * y.1, y.2) = pair_le x y := by
      simp only [pair_le]
      exact decide_eq_decide.mpr (mul_le_mul_left hc)
    simp only [List.map_cons, ins_by, hiff]
    by_cases h : pair_le x y = true
    · simp [h]
    · simp [h, ih]

theorem sort_by_scale (c : ℚ) (hc : 0 < c) (l : List (ℚ × Nat)) :
    sort_by pair_le (l.map (fun p => (c * p.1, p.2))) =
      (sort_by pair_le l).map (fun p => (c * p.1, p.2)) := by
  induction l with
  | nil => simp [sort_by]
  | cons x xs ih =>
    simp only [List.map_cons, sort_by, ih]
    exact ins_by_scale c hc x _

/-- Claim C8: scaling the query embedding by a positive scalar leaves the
ranking — the ordered list of row indices, tie-break order included —
unchanged. -/
theorem ranking_scale_invariant (c : ℚ) (q : Vec) (F : Mat) (hc : 0 < c) :
    ranking (q.map (fun x => c * x)) F = ranking q F := by
  simp only [ranking, best_photos, similarities_scale]
  rw [List.zip_map_left]
  have hφ : Prod.map (fun x : ℚ => c * x) (id : Nat → Nat) =
      (fun p : ℚ × Nat => (c * p.1, p.2)) := by
    funext p
    cases p
    simp [Prod.map]
  rw [hφ, sort_by_scale c hc, List.map_map]
  rfl

/-- Witness for `ranking_scale_invariant`: scaling the query `[1]` by `2`
leaves the ranking over a three-row corpus unchanged. -/
theorem ranking_scale_invariant_witness :
    (0 : ℚ) < 2 ∧
      ranking ([(1 : ℚ)].map (fun x => 2 * x)) [[(1 : ℚ)], [(2 : ℚ)], [(1 : ℚ)]] =
        ranking [(1 : ℚ)] [[(1 : ℚ)], [(2 : ℚ)], [(1 : ℚ)]] :=
  ⟨by norm_num,
    ranking_scale_invariant 2 [(1 : ℚ)] [[(1 : ℚ)], [(2 : ℚ)], [(1 : ℚ)]]
      (by norm_num)⟩

theorem read_results_none (bp : List (ℚ × Nat)) (ids : List String) :
    ∀ (is : List Nat) (i : Nat), i ∈ is → bp[i]? = none →
      read_results is bp ids = none := by
  intro is
  induction is with
  | nil => intro i h; simp at h
  | cons j js ih =>
    intro i hmem hnone
    rcases List.mem_cons.mp hmem with rfl | hmem'
    · simp [read_results, hnone]
    · cases hj : bp[j]? with
      | none => simp [read_results, hj]
      | some p =>
        cases hp : ids[p.2]? with
        | none => simp [read_results, hj, hp]
        | some pid => simp [read_results, hj, hp, ih i hmem' hnone]

/-- Counterexample to claim C4 as stated: corpus of size 1, requested result
count 2 — the printing loop indexes `best_photos[1]`, which does not exist,
so the query raises `IndexError` (modelled by `none`) instead of returning
the full corpus without error. -/
theorem search_k_gt_corpus_cex :
    display_results 2 (best_photos [(1 : ℚ)] [[(1 : ℚ)]]) ["a"] = none := by
  norm_num [display_results, read_results, best_photos, similarities, dot, sort_by,
    ins_by, pair_le, List.range_succ]

/-- Claim C4 (amended): whenever the requested result count exceeds the
corpus size, the per-query printing loop raises an index-out-of-range error
(the ranked prefix it printed up to that point notwithstanding); it does not
return the full corpus cleanly. -/
theorem search_k_gt_corpus_errors (q : Vec) (F : Mat) (ids : List String)
    (display_num : Nat) (h : F.length < display_num) :
    display_results display_num (best_photos q F) ids = none := by
  apply read_results_none _ _ _ F.length (List.mem_range.mpr h)
  exact List.getElem?_eq_none (le_of_eq (best_photos_length q F))

/-- Witness for `search_k_gt_corpus_errors` at corpus size 1, K = 2. -/
theorem search_k_gt_corpus_errors_witness :
    [[(1 : ℚ)]].length < 2 ∧
      display_results 2 (best_photos [(1 : ℚ)] [[(1 : ℚ)]]) ["a"] = none :=
  ⟨by norm_num, search_k_gt_corpus_errors [(1 : ℚ)] [[(1 : ℚ)]] ["a"] 2 (by norm_num)⟩

/-- Counterexample to claim C7 as stated: with the session fed an
encoder-failing query followed by a well-behaved one, the session produces
no answers at all — the second query is never answered — although the same
second query is answered when the failing query is absent. -/
theorem session_encoder_failure_cex :
    session_run 1 [[(1 : ℚ)]] ["a"] [none, some [(1 : ℚ)]] = [] ∧
      session_run 1 [[(1 : ℚ)]] ["a"] [some [(1 : ℚ)]] = [["a"]] := by
  norm_num [session_run, display_results, read_results, best_photos, similarities,
    dot, sort_by, ins_by, pair_le, List.range_succ]

/-- Claim C7 (amended): an encoder failure during search is session-fatal,
not query-scoped — there is no handler in the query loop, so every query
after the first failing one goes unprocessed. -/
theorem session_dies_on_encoder_failure (display_num : Nat) (F : Mat)
    (ids : List String) (qs rest : List (Option Vec)) :
    session_run display_num F ids (qs ++ none :: rest) =
      session_run display_num F ids (qs ++ [none]) := by
  induction qs with
  | nil => simp [session_run]
  | cons a qs' ih =>
    cases a with
    | none => simp [session_run]
    | some q =>
      simp only [List.cons_append, session_run]
      cases h : display_results display_num (best_photos q F) ids with
      | none => rfl
      | some out => simp [ih]

/-- Counterexample to claim C9 as stated: with two extension patterns that
both match the single file `a`, the enumerated input list contains `a`
twice — the enumeration is not deduplicated. -/
theorem photos_files_dup_cex :
    (photos_files [fun _ => true, fun _ => true] ["a"]).count "a" = 2 ∧
      ¬(photos_files [fun _ => true, fun _ => true] ["a"]).Nodup := by decide

/-- Claim C9 (amended): the enumerated file list is the plain concatenation
of the per-pattern matches, with no deduplication — each file occurs once
per pattern it matches, so a file matching several patterns is listed that
many times. -/
theorem photos_files_count (ext_list : List (String → Bool)) (dir : List String)
    (f : String) :
    (photos_files ext_list dir).count f =
      (ext_list.map (fun e => (dir.filter e).count f)).sum := by
  induction ext_list with
  | nil => simp [photos_files, cat_lists]
  | cons e es ih =>
    simp only [photos_files] at ih
    simp only [photos_files, List.map_cons, cat_lists, List.count_append,
      List.sum_cons, ih]

end ImageSearch
